import Mathlib

/-
Verification of the baur incremental build tool: a shallow embedding of the
postgres storage layer (pkg/storage/postgres/insert.go), the landlock sandbox
driver (internal/landlock), the sandboxed executor (internal/exec) and the
sandboxed task runner (pkg/baur), together with proofs of the specified
properties.  Machine integers are modelled as Nat or Int, fallible calls as
Except or Option, and syscall or database outcomes as explicit oracle
parameters.
-/

namespace Baur

/-! ### Ordering of (primary attribute, digest) key pairs

Every input comparator in insert.go compares a primary string attribute first
and breaks ties on the digest string, so the order is factored through a key
projection into pairs of strings. -/

/-- Ascending order on elements keyed by a (primary, digest) string pair:
strictly smaller primary attribute first, ties broken by digest.  This is the
reflexive order induced by the strict comparators that insert.go passes to
sort.Slice and slices.SortFunc. -/
def byKeyLe {α : Type} (key : α → String × String) (a b : α) : Prop :=
  (key a).1 < (key b).1 ∨ ((key a).1 = (key b).1 ∧ (key a).2 ≤ (key b).2)

instance {α : Type} (key : α → String × String) : DecidableRel (byKeyLe key) :=
  fun a b => by unfold byKeyLe; infer_instance

/-- Generic form of the strict comparators of insert.go: true when the primary
attribute of a is smaller, false when larger, otherwise the digests decide.
strings.Compare returning -1 is string less-than, byte order and code point
order agree on UTF-8 encoded strings. -/
def lessByKey {α : Type} (key : α → String × String) (a b : α) : Bool :=
  if (key a).1 < (key b).1 then true
  else if (key b).1 < (key a).1 then false
  else decide ((key a).2 < (key b).2)

/-! ### Input records of the storage package (pkg/storage)

Only the fields that insert.go reads are modelled. -/

/-- Mirrors storage.InputFile: repository relative path plus content digest. -/
structure InputFile where
  Path : String
  Digest : String
deriving DecidableEq, Repr

/-- Mirrors storage.InputString.  The Go field named String is called Str here
because String already denotes the string type in Lean. -/
structure InputString where
  Str : String
  Digest : String
deriving DecidableEq, Repr

/-- Mirrors storage.InputEnvVar: environment variable name plus value digest. -/
structure InputEnvVar where
  Name : String
  Digest : String
deriving DecidableEq, Repr

/-- Mirrors storage.InputTaskInfo: task name plus digest. -/
structure InputTaskInfo where
  Name : String
  Digest : String
deriving DecidableEq, Repr

/-- Sort key of clonedSortedInputfiles: (Path, Digest). -/
def InputFile.key (a : InputFile) : String × String := (a.Path, a.Digest)

/-- Sort key of clonedSortedInputStrings: (String, Digest). -/
def InputString.key (a : InputString) : String × String := (a.Str, a.Digest)

/-- Sort key of clonedSortedInputEnvVars: (Name, Digest). -/
def InputEnvVar.key (a : InputEnvVar) : String × String := (a.Name, a.Digest)

/-- Sort key of clonedSortedInputTasks: (Name, Digest). -/
def InputTaskInfo.key (a : InputTaskInfo) : String × String := (a.Name, a.Digest)

/-- Comparator passed to sort.Slice by clonedSortedInputfiles: Path decided by
strings.Compare unless equal, then the Digest comparison must be -1. -/
def inputFileLess (a b : InputFile) : Bool :=
  if a.Path < b.Path then true
  else if b.Path < a.Path then false
  else decide (a.Digest < b.Digest)

/-- Comparator passed to sort.Slice by clonedSortedInputStrings. -/
def inputStringLess (a b : InputString) : Bool :=
  if a.Str < b.Str then true
  else if b.Str < a.Str then false
  else decide (a.Digest < b.Digest)

/-- Comparator passed to sort.Slice by clonedSortedInputEnvVars: Name compared
with the Go less and greater string operators, ties broken by Digest. -/
def inputEnvVarLess (a b : InputEnvVar) : Bool :=
  if a.Name < b.Name then true
  else if b.Name < a.Name then false
  else decide (a.Digest < b.Digest)

/-- Comparator of clonedSortedInputTasks, written with cmp.Compare in the
source: negative on Name decides, zero falls through to Digest. -/
def inputTaskInfoLess (a b : InputTaskInfo) : Bool :=
  if a.Name < b.Name then true
  else if b.Name < a.Name then false
  else decide (a.Digest < b.Digest)

/-- Model of clonedSortedInputfiles: shallow copies the slice and sorts it by
(Path, Digest) ascending.  sort.Slice is an unstable sort, but the comparator
induces a total order that is antisymmetric on the (Path, Digest) values, so
every correctly sorted permutation is the same value list; insertion sort
computes it. -/
def clonedSortedInputfiles (inputs : List InputFile) : List InputFile :=
  List.insertionSort (byKeyLe InputFile.key) inputs

/-- Model of clonedSortedInputStrings, see clonedSortedInputfiles. -/
def clonedSortedInputStrings (inputs : List InputString) : List InputString :=
  List.insertionSort (byKeyLe InputString.key) inputs

/-- Model of clonedSortedInputEnvVars, see clonedSortedInputfiles. -/
def clonedSortedInputEnvVars (inputs : List InputEnvVar) : List InputEnvVar :=
  List.insertionSort (byKeyLe InputEnvVar.key) inputs

/-- Model of clonedSortedInputTasks (slices.SortFunc with a cmp.Compare based
comparator), see clonedSortedInputfiles. -/
def clonedSortedInputTasks (inputs : List InputTaskInfo) : List InputTaskInfo :=
  List.insertionSort (byKeyLe InputTaskInfo.key) inputs

/-! ### SQL statement model -/

/-- One positional SQL query argument: the insert layer passes strings (paths,
digests, names) and integers (ids, sizes, timestamps). -/
inductive SqlArg
  | s (v : String)
  | n (v : Int)
deriving DecidableEq, Repr

/-- One SQL statement handed to the database driver: the query text and its
positional arguments. -/
structure SqlStmt where
  text : String
  args : List SqlArg
deriving DecidableEq, Repr

/-- Database driver errors: a postgres server error carrying an SQLSTATE code
and a constraint name (pgconn.PgError), or any other driver error. -/
inductive DbError
  | pg (code : String) (constraintName : String)
  | other (msg : String)
deriving DecidableEq, Repr

/-- Errors surfaced by the insert layer.  emptyRelease models the error value
built by insertReleaseTaskRun for an empty id list, with the message: no task
run IDs were specified. -/
inductive StorageError
  | errExists
  | emptyRelease
  | queryErr (query : String) (e : DbError)
  | ioErr (msg : String)
deriving DecidableEq, Repr

/-- Semantic model of a database connection (the dbConn interface): the
outcome of Query followed by scanIDs, of QueryRow reading one id, and of Exec,
for any given statement. -/
structure DbConn where
  query : SqlStmt → Except DbError (List Int)
  queryRow : SqlStmt → Except DbError Int
  exec : SqlStmt → Except DbError Unit

/-- Port of queryValueStr: the VALUES argument string made of pairsCount
groups of argsPerPair enumerated parameters. -/
def queryValueStr (pairsCount argsPerPair : Nat) : String :=
  String.join ((List.range pairsCount).map (fun i =>
    (if 0 < i then " " else "")
      ++ "(" ++ String.intercalate ", "
            ((List.range argsPerPair).map (fun j =>
              "$" ++ toString (i * argsPerPair + j + 1)))
      ++ ")"
      ++ (if i < pairsCount - 1 then ", " else "")))

/-- Port of queryValuePairFirstConstStr: pairsCount pairs whose first argument
is the constant first parameter. -/
def queryValuePairFirstConstStr (pairsCount : Nat) : String :=
  String.intercalate ", "
    ((List.range pairsCount).map (fun i => "($1, $" ++ toString (i + 2) ++ ")"))

/-- Run one statement with db.Query followed by scanIDs, collecting the
issued statement; a driver error is wrapped by newQueryError. -/
def dbQueryStmts (db : DbConn) (stmt : SqlStmt) :
    List SqlStmt × Except StorageError (List Int) :=
  match db.query stmt with
  | .error e => ([stmt], .error (.queryErr stmt.text e))
  | .ok ids => ([stmt], .ok ids)

/-- Model of insertInputFilesIfNotExist: sort the inputs by (Path, Digest),
build the bulk upsert statement over the sorted rows, run it and scan the
returned ids.  SQL text is the source constant with condensed whitespace. -/
def insertInputFilesIfNotExist (db : DbConn) (inputs0 : List InputFile) :
    List SqlStmt × Except StorageError (List Int) :=
  let inputs := clonedSortedInputfiles inputs0
  let stmtVals := queryValueStr inputs.length 2
  let queryArgs := inputs.flatMap (fun i => [SqlArg.s i.Path, SqlArg.s i.Digest])
  let query := "INSERT INTO input_file (path, digest) VALUES " ++ stmtVals
      ++ " ON CONFLICT ON CONSTRAINT input_file_path_digest_uniq DO UPDATE SET id=input_file.id RETURNING id"
  dbQueryStmts db ⟨query, queryArgs⟩

/-- Model of insertInputStringsIfNotExist, see insertInputFilesIfNotExist. -/
def insertInputStringsIfNotExist (db : DbConn) (inputs0 : List InputString) :
    List SqlStmt × Except StorageError (List Int) :=
  let inputs := clonedSortedInputStrings inputs0
  let stmtVals := queryValueStr inputs.length 2
  let queryArgs := inputs.flatMap (fun i => [SqlArg.s i.Str, SqlArg.s i.Digest])
  let query := "INSERT INTO input_string (string, digest) VALUES " ++ stmtVals
      ++ " ON CONFLICT ON CONSTRAINT input_string_digest_uniq DO UPDATE SET id=input_string.id RETURNING id"
  dbQueryStmts db ⟨query, queryArgs⟩

/-- Model of insertInputTaskIfNotExist, see insertInputFilesIfNotExist. -/
def insertInputTaskIfNotExist (db : DbConn) (inputs0 : List InputTaskInfo) :
    List SqlStmt × Except StorageError (List Int) :=
  let inputs := clonedSortedInputTasks inputs0
  let stmtVals := queryValueStr inputs.length 2
  let queryArgs := inputs.flatMap (fun i => [SqlArg.s i.Name, SqlArg.s i.Digest])
  let query := "INSERT INTO input_task (name, digest) VALUES " ++ stmtVals
      ++ " ON CONFLICT ON CONSTRAINT input_task_name_digest_uniq DO UPDATE SET id=input_task.id RETURNING id"
  dbQueryStmts db ⟨query, queryArgs⟩

/-- Model of insertInputEnVarsIfNotExist (name as in the source), see
insertInputFilesIfNotExist. -/
def insertInputEnVarsIfNotExist (db : DbConn) (inputs0 : List InputEnvVar) :
    List SqlStmt × Except StorageError (List Int) :=
  let inputs := clonedSortedInputEnvVars inputs0
  let stmtVals := queryValueStr inputs.length 2
  let queryArgs := inputs.flatMap (fun i => [SqlArg.s i.Name, SqlArg.s i.Digest])
  let query := "INSERT INTO input_env_var (name, digest) VALUES " ++ stmtVals
      ++ " ON CONFLICT ON CONSTRAINT input_env_var_name_digest_uniq DO UPDATE SET id=input_env_var.id RETURNING id"
  dbQueryStmts db ⟨query, queryArgs⟩

/-- Model of insertTaskRunInputStringsIfNotExist: nothing is done for an empty
input list, otherwise the interning insert runs first and the returned ids are
bulk inserted into the junction table. -/
def insertTaskRunInputStringsIfNotExist (db : DbConn) (taskRunID : Int)
    (inputStrings : List InputString) : List SqlStmt × Except StorageError Unit :=
  if inputStrings = [] then ([], .ok ())
  else
    match insertInputStringsIfNotExist db inputStrings with
    | (stmts, .error e) => (stmts, .error e)
    | (stmts, .ok inputStringIDs) =>
      let stmtVals := queryValuePairFirstConstStr inputStringIDs.length
      let query := "INSERT INTO task_run_string_input (task_run_id, input_string_id) VALUES " ++ stmtVals
      let queryArgs := SqlArg.n taskRunID :: inputStringIDs.map SqlArg.n
      let stmt : SqlStmt := ⟨query, queryArgs⟩
      match db.exec stmt with
      | .error e => (stmts ++ [stmt], .error (.queryErr query e))
      | .ok _ => (stmts ++ [stmt], .ok ())

/-- Model of insertTaskRunInputFilesIfNotExist.  The source builds the pair
list with an inline loop producing the same string as
queryValuePairFirstConstStr. -/
def insertTaskRunInputFilesIfNotExist (db : DbConn) (taskRunID : Int)
    (inputFiles : List InputFile) : List SqlStmt × Except StorageError Unit :=
  if inputFiles = [] then ([], .ok ())
  else
    match insertInputFilesIfNotExist db inputFiles with
    | (stmts, .error e) => (stmts, .error e)
    | (stmts, .ok inputIDs) =>
      let stmtVals := queryValuePairFirstConstStr inputIDs.length
      let query := "INSERT INTO task_run_file_input (task_run_id, input_file_id) VALUES " ++ stmtVals
      let queryArgs := SqlArg.n taskRunID :: inputIDs.map SqlArg.n
      let stmt : SqlStmt := ⟨query, queryArgs⟩
      match db.exec stmt with
      | .error e => (stmts ++ [stmt], .error (.queryErr query e))
      | .ok _ => (stmts ++ [stmt], .ok ())

/-- Model of insertTaskRunInputTasksIfNotExist, see
insertTaskRunInputFilesIfNotExist. -/
def insertTaskRunInputTasksIfNotExist (db : DbConn) (taskRunID : Int)
    (inputs : List InputTaskInfo) : List SqlStmt × Except StorageError Unit :=
  if inputs = [] then ([], .ok ())
  else
    match insertInputTaskIfNotExist db inputs with
    | (stmts, .error e) => (stmts, .error e)
    | (stmts, .ok inputIDs) =>
      let stmtVals := queryValuePairFirstConstStr inputIDs.length
      let query := "INSERT INTO task_run_task_input (task_run_id, input_task_id) VALUES " ++ stmtVals
      let queryArgs := SqlArg.n taskRunID :: inputIDs.map SqlArg.n
      let stmt : SqlStmt := ⟨query, queryArgs⟩
      match db.exec stmt with
      | .error e => (stmts ++ [stmt], .error (.queryErr query e))
      | .ok _ => (stmts ++ [stmt], .ok ())

/-- Model of insertTaskRunInputEnvVarsIfNotExist, see
insertTaskRunInputFilesIfNotExist. -/
def insertTaskRunInputEnvVarsIfNotExist (db : DbConn) (taskRunID : Int)
    (inputEnvVars : List InputEnvVar) : List SqlStmt × Except StorageError Unit :=
  if inputEnvVars = [] then ([], .ok ())
  else
    match insertInputEnVarsIfNotExist db inputEnvVars with
    | (stmts, .error e) => (stmts, .error e)
    | (stmts, .ok inputIDs) =>
      let stmtVals := queryValuePairFirstConstStr inputIDs.length
      let query := "INSERT INTO task_run_env_var_input (task_run_id, input_env_var_id) VALUES " ++ stmtVals
      let queryArgs := SqlArg.n taskRunID :: inputIDs.map SqlArg.n
      let stmt : SqlStmt := ⟨query, queryArgs⟩
      match db.exec stmt with
      | .error e => (stmts ++ [stmt], .error (.queryErr query e))
      | .ok _ => (stmts ++ [stmt], .ok ())

/-- Mirrors storage.Upload. -/
structure Upload where
  URI : String
  Method : String
  UploadStartTimestamp : Int
  UploadStopTimestamp : Int
deriving DecidableEq, Repr

/-- Mirrors storage.Output.  The Go field named Type is called Typ here
because Type is reserved in Lean. -/
structure Output where
  Name : String
  Typ : String
  Digest : String
  SizeBytes : Int
  Uploads : List Upload
deriving DecidableEq, Repr

/-- Model of insertUploads. -/
def insertUploads (db : DbConn) (uploads : List Upload) :
    List SqlStmt × Except StorageError (List Int) :=
  let stmtVals := queryValueStr uploads.length 4
  let queryArgs := uploads.flatMap (fun u =>
    [SqlArg.s u.URI, SqlArg.s u.Method, SqlArg.n u.UploadStartTimestamp,
     SqlArg.n u.UploadStopTimestamp])
  let query := "INSERT into upload (uri, method, start_timestamp, stop_timestamp) VALUES"
      ++ stmtVals ++ " RETURNING id"
  let stmt : SqlStmt := ⟨query, queryArgs⟩
  match db.query stmt with
  | .error e => ([stmt], .error (.queryErr query e))
  | .ok ids => ([stmt], .ok ids)

/-- Model of insertOutputIfNotExist. -/
def insertOutputIfNotExist (db : DbConn) (output : Output) :
    List SqlStmt × Except StorageError Int :=
  let query := "INSERT INTO output (name, type, digest, size_bytes) VALUES($1, $2, $3, $4) ON CONFLICT ON CONSTRAINT output_name_type_digest_size_bytes_uniq DO UPDATE SET id=output.id RETURNING id"
  let queryArgs := [SqlArg.s output.Name, SqlArg.s output.Typ,
    SqlArg.s output.Digest, SqlArg.n output.SizeBytes]
  let stmt : SqlStmt := ⟨query, queryArgs⟩
  match db.queryRow stmt with
  | .error e => ([stmt], .error (.queryErr query e))
  | .ok id => ([stmt], .ok id)

/-- Loop body of insertTaskOutputsIfNotExist: upsert every output row, insert
its uploads, and collect (outputID, uploadID) records. -/
def insertTaskOutputsLoop (db : DbConn) (outputs : List Output) :
    List SqlStmt × Except StorageError (List (Int × Int)) :=
  match outputs with
  | [] => ([], .ok [])
  | output :: rest =>
    match insertOutputIfNotExist db output with
    | (s1, .error e) => (s1, .error e)
    | (s1, .ok outputID) =>
      match insertUploads db output.Uploads with
      | (s2, .error e) => (s1 ++ s2, .error e)
      | (s2, .ok uploadIDs) =>
        match insertTaskOutputsLoop db rest with
        | (s3, .error e) => (s1 ++ s2 ++ s3, .error e)
        | (s3, .ok records) =>
          (s1 ++ s2 ++ s3, .ok (uploadIDs.map (fun uid => (outputID, uid)) ++ records))

/-- Model of insertTaskOutputsIfNotExist: nothing is done for an empty output
list, otherwise every output and its uploads are inserted and the triples are
bulk inserted into task_run_output. -/
def insertTaskOutputsIfNotExist (db : DbConn) (taskRunID : Int)
    (outputs : List Output) : List SqlStmt × Except StorageError Unit :=
  if outputs = [] then ([], .ok ())
  else
    match insertTaskOutputsLoop db outputs with
    | (stmts, .error e) => (stmts, .error e)
    | (stmts, .ok records) =>
      let stmtVals := queryValueStr records.length 3
      let query := "INSERT INTO task_run_output (task_run_id, output_id, upload_id) VALUES" ++ stmtVals
      let queryArgs := records.flatMap (fun r => [SqlArg.n taskRunID, SqlArg.n r.1, SqlArg.n r.2])
      let stmt : SqlStmt := ⟨query, queryArgs⟩
      match db.exec stmt with
      | .error e => (stmts ++ [stmt], .error (.queryErr query e))
      | .ok _ => (stmts ++ [stmt], .ok ())

/-! ### Release creation -/

/-- Registry state touched by release creation: the set of release names
already stored and the release to task run junction rows. -/
structure ReleaseDb where
  releases : List String
  releaseTaskRuns : List (Int × Int)
deriving DecidableEq, Repr

/-- Query text of Client.insertRelease with condensed whitespace. -/
def releaseInsertQueryText : String :=
  "INSERT INTO release (name, created_at, metadata) VALUES($1, $2, $3) RETURNING id"

/-- Modelled from the spec: the release table stores names uniquely under the
constraint release_name_uniq (the schema DDL is not among the given source
files; spec section 4.6 lists release(id, name UNIQUE, created_at, metadata)).
Executing the INSERT INTO release statement fails with a unique violation
(SQLSTATE 23505) naming that constraint when the name is already present,
otherwise it stores the row and returns a fresh id. -/
def releaseInsertQuery (db : ReleaseDb) (name : String) : Except DbError (Int × ReleaseDb) :=
  if name ∈ db.releases then .error (.pg "23505" "release_name_uniq")
  else .ok ((db.releases.length : Int), { db with releases := db.releases ++ [name] })

/-- Port of the error handling in Client.insertRelease: a postgres unique
violation on release_name_uniq becomes storage.ErrExists, every other error a
query error. -/
def releaseInsertErrToStorage (query : String) (e : DbError) : StorageError :=
  match e with
  | .pg code constraintName =>
    if code = "23505" ∧ constraintName = "release_name_uniq" then .errExists
    else .queryErr query e
  | .other _ => .queryErr query e

/-- Model of Client.insertRelease: read the metadata stream, run the insert
query, map its errors with releaseInsertErrToStorage. -/
def Client.insertRelease (db : ReleaseDb) (name : String) (createdAt : Int)
    (metadata : Option (Except String (List Nat))) : ReleaseDb × Except StorageError Int :=
  match metadata with
  | some (.error m) => (db, .error (.ioErr m))
  | _ =>
    match releaseInsertQuery db name with
    | .error e => (db, .error (releaseInsertErrToStorage releaseInsertQueryText e))
    | .ok (releaseID, db2) => (db2, .ok releaseID)

/-- Model of Client.insertReleaseTaskRun: an empty task run id list is
rejected before any statement is built, otherwise the (release_id,
task_run_id) pairs are bulk inserted.  The bulk insert statement itself is
modelled as succeeding; its own failure modes are immaterial to the claims. -/
def Client.insertReleaseTaskRun (db : ReleaseDb) (releaseID : Int)
    (taskRunIDs : List Int) : ReleaseDb × Except StorageError Unit :=
  if taskRunIDs = [] then (db, .error .emptyRelease)
  else
    ({ db with releaseTaskRuns :=
        db.releaseTaskRuns ++ taskRunIDs.map (fun id => (releaseID, id)) },
     .ok ())

/-- Model of db.BeginFunc of the pgx driver: run the body on the current
state; commit its state on success, roll back to the initial state on error. -/
def beginFunc (db : ReleaseDb)
    (f : ReleaseDb → ReleaseDb × Except StorageError Unit) :
    ReleaseDb × Except StorageError Unit :=
  match f db with
  | (db2, .ok _) => (db2, .ok ())
  | (_, .error e) => (db, .error e)

/-- Model of Client.CreateRelease: one transaction that inserts the release
row and then the release to task run pairs. -/
def Client.CreateRelease (db : ReleaseDb) (releaseName : String) (createdAt : Int)
    (taskRunIDs : List Int) (metadata : Option (Except String (List Nat))) :
    ReleaseDb × Except StorageError Unit :=
  beginFunc db (fun tx =>
    match Client.insertRelease tx releaseName createdAt metadata with
    | (tx2, .error e) => (tx2, .error e)
    | (tx2, .ok releaseID) => Client.insertReleaseTaskRun tx2 releaseID taskRunIDs)

/-! ### Landlock sandbox driver (internal/landlock) -/

/-- Linux uapi landlock access right (golang.org/x/sys/unix). -/
def LANDLOCK_ACCESS_FS_READ_FILE : Nat := 1 <<< 2

/-- Linux uapi landlock access right (golang.org/x/sys/unix). -/
def LANDLOCK_ACCESS_FS_READ_DIR : Nat := 1 <<< 3

/-- Linux uapi landlock access right (golang.org/x/sys/unix). -/
def LANDLOCK_ACCESS_FS_REMOVE_DIR : Nat := 1 <<< 4

/-- Linux uapi landlock access right (golang.org/x/sys/unix). -/
def LANDLOCK_ACCESS_FS_MAKE_DIR : Nat := 1 <<< 7

/-- Go uint64 and-not (the x &^ y operator) on values below 2 to the 64. -/
def andNot64 (x y : Nat) : Nat := x &&& ((2 ^ 64 - 1) ^^^ y)

/-- Linux errno value of the missing-syscall error (syscall package). -/
def ENOSYS : Nat := 38

/-- Linux errno value of the operation-not-supported error; on Linux the Go
constants EOPNOTSUPP and ENOTSUP denote the same number. -/
def EOPNOTSUPP : Nat := 95

/-- Errors of the landlock package: ErrLandlockDisabled,
ErrLandLockNotSupported, or a plain errno returned unchanged. -/
inductive LandlockError
  | errLandlockDisabled
  | errLandLockNotSupported
  | errno (code : Nat)
deriving DecidableEq, Repr

/-- Port of errnoToError: a nonzero errno equal to EOPNOTSUPP maps to the
disabled-at-boot error, ENOSYS to the kernel-unsupported error, any other
nonzero errno to itself; errno zero means no error. -/
def errnoToError (e : Nat) : Option LandlockError :=
  if e ≠ 0 then
    if e = EOPNOTSUPP then some .errLandlockDisabled
    else if e = ENOSYS then some .errLandLockNotSupported
    else some (.errno e)
  else none

/-- Port of fsRights: the landlock read rights the ruleset is keyed to. -/
def fsRights : Nat := LANDLOCK_ACCESS_FS_READ_DIR ||| LANDLOCK_ACCESS_FS_READ_FILE

/-- Port of fileRights: fsRights with the directory specific rights removed by
the Go and-not operator. -/
def fileRights : Nat :=
  andNot64 fsRights
    (LANDLOCK_ACCESS_FS_MAKE_DIR ||| LANDLOCK_ACCESS_FS_READ_DIR |||
      LANDLOCK_ACCESS_FS_REMOVE_DIR)

/-- Mirrors FSRuleset: the ruleset file descriptor. -/
structure FSRuleset where
  filedescriptor : Nat
deriving DecidableEq, Repr

/-- Model of Version: the result registers of the landlock create ruleset
version probe are the oracle inputs r (return value) and errno; Go returns
the pair (int, error). -/
def Version (r errno : Nat) : Int × Option LandlockError :=
  if errno ≠ 0 then (-1, errnoToError errno) else ((r : Int), none)

/-- Model of NewFSRuleset: the create ruleset syscall yields a descriptor fd
or an errno; Go returns (ruleset, error) with a nil ruleset on failure. -/
def NewFSRuleset (fd errno : Nat) : Option FSRuleset × Option LandlockError :=
  if errno ≠ 0 then (none, errnoToError errno) else (some ⟨fd⟩, none)

/-- Port of accessRights: fs.IsDir decides between the full mask and the file
mask; its failure is propagated.  The filesystem answer is an oracle input. -/
def accessRights (isDir : Except String Bool) : Except String Nat :=
  match isDir with
  | .error e => .error e
  | .ok true => .ok fsRights
  | .ok false => .ok fileRights

/-- Mirrors unix.LandlockPathBeneathAttr: the rule registered for one path. -/
structure LandlockPathBeneathAttr where
  Allowed_access : Nat
  Parent_fd : Nat
deriving DecidableEq, Repr

/-- Failure cases of FSRuleset.Allow. -/
inductive AllowError
  | isDirFailed (msg : String)
  | openFailed (msg : String)
  | landlock (e : LandlockError)
deriving DecidableEq, Repr

/-- Oracle for one FSRuleset.Allow call: the stat answer for the path, the
open result, and the errno of the add rule syscall. -/
structure AllowWorld where
  isDir : Except String Bool
  openResult : Except String Nat
  addRuleErrno : Nat

/-- Model of FSRuleset.Allow: select the access mask for the path, open it
with O_PATH, and register a PATH_BENEATH rule carrying the mask.  The first
component is the attribute handed to the add rule syscall, none when the call
failed before reaching it. -/
def FSRuleset.Allow (rs : FSRuleset) (w : AllowWorld) :
    Option LandlockPathBeneathAttr × Option AllowError :=
  match accessRights w.isDir with
  | .error e => (none, some (.isDirFailed e))
  | .ok perms =>
    match w.openResult with
    | .error e => (none, some (.openFailed e))
    | .ok fd =>
      let attr : LandlockPathBeneathAttr := ⟨perms, fd⟩
      (some attr, (errnoToError w.addRuleErrno).map .landlock)

/-- Steps of FSRuleset.Restrict in execution order. -/
inductive RestrictStep
  | prctlNoNewPrivs
  | landlockRestrictSelf
deriving DecidableEq, Repr

/-- Failure cases of FSRuleset.Restrict. -/
inductive RestrictError
  | prctlFailed (msg : String)
  | landlock (e : LandlockError)
deriving DecidableEq, Repr

/-- Oracle for FSRuleset.Restrict: outcome of the prctl call and errno of the
restrict self syscall. -/
structure RestrictWorld where
  prctlErr : Option String
  restrictErrno : Nat

/-- Model of FSRuleset.Restrict: set the no-new-privileges flag first; only
when that succeeded issue the landlock restrict self syscall.  The first
component lists the operations issued, in order. -/
def FSRuleset.Restrict (rs : FSRuleset) (w : RestrictWorld) :
    List RestrictStep × Option RestrictError :=
  match w.prctlErr with
  | some m => ([.prctlNoNewPrivs], some (.prctlFailed m))
  | none =>
    ([.prctlNoNewPrivs, .landlockRestrictSelf],
      (errnoToError w.restrictErrno).map .landlock)

/-! ### Sandboxed executor (internal/exec) -/

/-- Mirrors exec.CmdSandboxed. -/
structure CmdSandboxed where
  Name : String
  Args : List String
  Dir : String
  Env : List String
  AllowedFSAccessPaths : List String
deriving DecidableEq, Repr

/-- Steps of CmdSandboxed.Exec in execution order. -/
inductive ExecStep
  | createRuleset
  | allowPath (p : String)
  | restrictSelf
  | chdirWorkDir
  | execImage
deriving DecidableEq, Repr

/-- Failure cases of CmdSandboxed.Exec. -/
inductive ExecError
  | rulesetCreation (e : LandlockError)
  | allowFailed (p : String) (msg : String)
  | restrictFailed (msg : String)
  | chdirFailed (msg : String)
  | execFailed (msg : String)
deriving DecidableEq, Repr

/-- Oracle for one CmdSandboxed.Exec call: outcome of ruleset creation, of
each Allow call by path, of Restrict, of Chdir and of the final exec. -/
structure ExecWorld where
  newRulesetErr : Option LandlockError
  allowErr : String → Option String
  restrictErr : Option String
  chdirErr : Option String
  execErr : Option String

/-- Allow loop of CmdSandboxed.Exec: one rule per allowed path, in list
order, stopping at the first failure. -/
def allowAll (w : ExecWorld) : List String → List ExecStep × Option ExecError
  | [] => ([], none)
  | p :: ps =>
    match w.allowErr p with
    | some m => ([.allowPath p], some (.allowFailed p m))
    | none =>
      let r := allowAll w ps
      (.allowPath p :: r.1, r.2)

/-- Model of CmdSandboxed.Exec: create the landlock ruleset, allow every path
of AllowedFSAccessPaths in order, self restrict, chdir to the working
directory, and only then replace the process image.  Every operation is
appended to the trace when it is issued; the first failure aborts with an
error. -/
def CmdSandboxed.Exec (c : CmdSandboxed) (w : ExecWorld) :
    List ExecStep × Option ExecError :=
  match w.newRulesetErr with
  | some e => ([.createRuleset], some (.rulesetCreation e))
  | none =>
    match allowAll w c.AllowedFSAccessPaths with
    | (tr, some e) => (.createRuleset :: tr, some e)
    | (tr, none) =>
      match w.restrictErr with
      | some m => (.createRuleset :: tr ++ [.restrictSelf], some (.restrictFailed m))
      | none =>
        match w.chdirErr with
        | some m =>
          (.createRuleset :: tr ++ [.restrictSelf, .chdirWorkDir],
            some (.chdirFailed m))
        | none =>
          match w.execErr with
          | some m =>
            (.createRuleset :: tr ++ [.restrictSelf, .chdirWorkDir, .execImage],
              some (.execFailed m))
          | none =>
            (.createRuleset :: tr ++ [.restrictSelf, .chdirWorkDir, .execImage],
              none)

/-! ### Sandboxed task runner (pkg/baur) -/

/-- Mirrors the Task fields that RunSandboxed reads. -/
structure Task where
  RepositoryRoot : String
  Command : List String
  Directory : String
deriving DecidableEq, Repr

/-- Observable side effects of RunSandboxed, in order of occurrence. -/
inductive RunEvent
  | taskInfoTempFilesCreated
  | sandboxedChildStarted
deriving DecidableEq, Repr

/-- Errors returned by RunSandboxed. -/
inductive RunError
  | errTaskRunSkipped
  | errUntrackedGitFilesExist (untrackedFiles : List String)
  | gitUntrackedFilesFnFailed (msg : String)
  | taskInfoEnvFailed (msg : String)
  | encodeCmdSbFailed (msg : String)
  | childFailed (msg : String)
deriving DecidableEq, Repr

/-- Runner state read by RunSandboxed: the skip-after-error flag, whether run
skipping is enabled (SkipRunsIsEnabled), and the optional untracked files
callback of the VCS. -/
structure TaskRunner where
  skipAfterError : Bool
  skipRunsEnabled : Bool
  GitUntrackedFilesFn : Option (String → Except String (List String))

/-- Oracle for one RunSandboxed call: outcome of createTaskInfoEnv, of the
gob encoding, and of running the re-executed sandboxed child. -/
structure RunWorld where
  createTaskInfoEnvResult : Except String (List String)
  encodeErr : Option String
  childResult : Except String Nat

/-- Tail of RunSandboxed after the skip and untracked-files gates: create the
task info environment (temp files), encode the sandboxed command, start the
re-executed child.  Split out of the model of RunSandboxed for readability. -/
def runSandboxedBody (w : RunWorld) : List RunEvent × Except RunError Nat :=
  match w.createTaskInfoEnvResult with
  | .error m => ([], .error (.taskInfoEnvFailed m))
  | .ok _ =>
    match w.encodeErr with
    | some m => ([.taskInfoTempFilesCreated], .error (.encodeCmdSbFailed m))
    | none =>
      match w.childResult with
      | .error m =>
        ([.taskInfoTempFilesCreated, .sandboxedChildStarted], .error (.childFailed m))
      | .ok code =>
        ([.taskInfoTempFilesCreated, .sandboxedChildStarted], .ok code)

/-- Model of TaskRunner.RunSandboxed: the skip gate, then the untracked-files
gate, then the effects of runSandboxedBody.  The trace lists the side effects
that happened; both gates return before any side effect. -/
def TaskRunner.RunSandboxed (t : TaskRunner) (task : Task) (w : RunWorld) :
    List RunEvent × Except RunError Nat :=
  if t.skipAfterError ∧ t.skipRunsEnabled then ([], .error .errTaskRunSkipped)
  else
    match t.GitUntrackedFilesFn with
    | some f =>
      match f task.RepositoryRoot with
      | .error m => ([], .error (.gitUntrackedFilesFnFailed m))
      | .ok untracked =>
        if untracked ≠ [] then ([], .error (.errUntrackedGitFilesExist untracked))
        else runSandboxedBody w
    | none => runSandboxedBody w

/-! ### Gob serialization of CmdSandboxed (encodeCmdSb and decodeCmdSb)

encodeCmdSb writes the record with encoding/gob: a struct travels as a
sequence of (field number delta, value) pairs for the fields that do not hold
their zero value, terminated by a zero delta; strings travel length prefixed
and string slices as a count followed by the elements.  The model keeps the
token structure of that stream (numbers and strings) rather than its byte
level varint coding, which is a bijective layer below it. -/

/-- One token of the gob stream. -/
inductive GobTok
  | num (n : Nat)
  | str (s : String)
deriving DecidableEq, Repr

/-- Gob coding of a string slice: element count, then the elements. -/
def encStrList (l : List String) : List GobTok :=
  .num l.length :: l.map .str

/-- The non zero fields of one CmdSandboxed record, numbered in declaration
order from one, each with its gob coded value.  encoding/gob omits fields
holding their zero value. -/
def nonZeroFields (c : CmdSandboxed) : List (Nat × List GobTok) :=
  (if c.Name = "" then [] else [(1, [.str c.Name])]) ++
  (if c.Args = [] then [] else [(2, encStrList c.Args)]) ++
  (if c.Dir = "" then [] else [(3, [.str c.Dir])]) ++
  (if c.Env = [] then [] else [(4, encStrList c.Env)]) ++
  (if c.AllowedFSAccessPaths = [] then [] else [(5, encStrList c.AllowedFSAccessPaths)])

/-- Emit the field list of a gob struct value: the delta of each field number
to the previous one, then the coded value; a zero delta ends the struct. -/
def emitFields : Nat → List (Nat × List GobTok) → List GobTok
  | _, [] => [.num 0]
  | prev, (n, v) :: rest => .num (n - prev) :: (v ++ emitFields n rest)

/-- Model of encodeCmdSb: the gob stream of one CmdSandboxed record. -/
def encodeCmdSb (c : CmdSandboxed) : List GobTok :=
  emitFields 0 (nonZeroFields c)

/-- Decoding failures of decodeCmdSb. -/
inductive GobError
  | unexpectedToken
  | unknownField (n : Nat)
deriving DecidableEq, Repr

/-- Read count strings from the stream. -/
def readStrs : Nat → List GobTok → Except GobError (List String × List GobTok)
  | 0, toks => .ok ([], toks)
  | n + 1, .str s :: rest =>
    match readStrs n rest with
    | .ok (l, r) => .ok (s :: l, r)
    | .error e => .error e
  | _ + 1, _ => .error .unexpectedToken

/-- Read a gob coded string slice: count then elements. -/
def readStrList : List GobTok → Except GobError (List String × List GobTok)
  | .num n :: rest => readStrs n rest
  | _ => .error .unexpectedToken

/-- The zero CmdSandboxed value that gob decoding starts from. -/
def zeroCmdSb : CmdSandboxed := ⟨"", [], "", [], []⟩

/-- Decode loop over the (delta, value) pairs of one struct message.  A zero
delta ends the struct; field numbers strictly increase, so at most five
fields can follow and the remaining field allowance is the recursion
measure. -/
def decodeFields (allowed prev : Nat) (c : CmdSandboxed) (toks : List GobTok) :
    Except GobError CmdSandboxed :=
  match toks with
  | .num d :: rest =>
    if d = 0 then .ok c
    else if h : allowed = 0 then .error .unexpectedToken
    else
      match prev + d, rest with
      | 1, .str s :: r => decodeFields (allowed - 1) 1 { c with Name := s } r
      | 1, _ => .error .unexpectedToken
      | 2, r =>
        (match readStrList r with
         | .ok (l, r2) => decodeFields (allowed - 1) 2 { c with Args := l } r2
         | .error e => .error e)
      | 3, .str s :: r => decodeFields (allowed - 1) 3 { c with Dir := s } r
      | 3, _ => .error .unexpectedToken
      | 4, r =>
        (match readStrList r with
         | .ok (l, r2) => decodeFields (allowed - 1) 4 { c with Env := l } r2
         | .error e => .error e)
      | 5, r =>
        (match readStrList r with
         | .ok (l, r2) =>
            decodeFields (allowed - 1) 5 { c with AllowedFSAccessPaths := l } r2
         | .error e => .error e)
      | n, _ => .error (.unknownField n)
  | _ => .error .unexpectedToken
termination_by allowed
decreasing_by all_goals omega

/-- Model of decodeCmdSb: gob decode of one CmdSandboxed record from the
stream, starting from the zero value. -/
def decodeCmdSb (toks : List GobTok) : Except GobError CmdSandboxed :=
  decodeFields 5 0 zeroCmdSb toks

/-! ## Theorems -/

/-! ### The (primary, digest) order is total, transitive and antisymmetric -/

theorem byKeyLe_total {α : Type} (key : α → String × String) :
    IsTotal α (byKeyLe key) := by
  constructor
  intro a b
  rcases lt_trichotomy (key a).1 (key b).1 with h | h | h
  · exact Or.inl (Or.inl h)
  · rcases le_total (key a).2 (key b).2 with hd | hd
    · exact Or.inl (Or.inr ⟨h, hd⟩)
    · exact Or.inr (Or.inr ⟨h.symm, hd⟩)
  · exact Or.inr (Or.inl h)

theorem byKeyLe_trans {α : Type} (key : α → String × String) :
    IsTrans α (byKeyLe key) := by
  constructor
  intro a b c hab hbc
  rcases hab with h1 | ⟨e1, d1⟩
  · rcases hbc with h2 | ⟨e2, _⟩
    · exact Or.inl (h1.trans h2)
    · exact Or.inl (lt_of_lt_of_eq h1 e2)
  · rcases hbc with h2 | ⟨e2, d2⟩
    · exact Or.inl (lt_of_eq_of_lt e1 h2)
    · exact Or.inr ⟨e1.trans e2, d1.trans d2⟩

theorem byKeyLe_antisymm {α : Type} (key : α → String × String)
    (hinj : ∀ a b : α, key a = key b → a = b) :
    IsAntisymm α (byKeyLe key) := by
  constructor
  intro a b hab hba
  apply hinj
  rcases hab with h1 | ⟨e1, d1⟩
  · rcases hba with h2 | ⟨e2, _⟩
    · exact absurd h2 (lt_asymm h1)
    · exact absurd h1 (by rw [e2]; exact lt_irrefl _)
  · rcases hba with h2 | ⟨e2, d2⟩
    · exact absurd h2 (by rw [e1]; exact lt_irrefl _)
    · exact Prod.ext e1 (le_antisymm d1 d2)

theorem byKeyLe_iff_not_less {α : Type} (key : α → String × String) (a b : α) :
    byKeyLe key a b ↔ lessByKey key b a = false := by
  unfold byKeyLe lessByKey
  rcases lt_trichotomy (key a).1 (key b).1 with h | h | h
  · simp [h, lt_asymm h]
  · simp [h, lt_irrefl, not_lt]
  · simp [h, lt_asymm h, h.ne']

theorem inputFileKeyInj : ∀ a b : InputFile, a.key = b.key → a = b := by
  intro a b h
  cases a; cases b
  simpa [InputFile.key, Prod.ext_iff] using h

theorem inputStringKeyInj : ∀ a b : InputString, a.key = b.key → a = b := by
  intro a b h
  cases a; cases b
  simpa [InputString.key, Prod.ext_iff] using h

theorem inputEnvVarKeyInj : ∀ a b : InputEnvVar, a.key = b.key → a = b := by
  intro a b h
  cases a; cases b
  simpa [InputEnvVar.key, Prod.ext_iff] using h

theorem inputTaskInfoKeyInj : ∀ a b : InputTaskInfo, a.key = b.key → a = b := by
  intro a b h
  cases a; cases b
  simpa [InputTaskInfo.key, Prod.ext_iff] using h

theorem sortedByKeyLe {α : Type} (key : α → String × String) (l : List α) :
    List.Sorted (byKeyLe key) (List.insertionSort (byKeyLe key) l) := by
  haveI := byKeyLe_total key
  haveI := byKeyLe_trans key
  exact List.sorted_insertionSort _ _

theorem insertionSortByKey_perm_eq {α : Type} (key : α → String × String)
    (hinj : ∀ a b : α, key a = key b → a = b) {l l2 : List α} (h : l.Perm l2) :
    List.insertionSort (byKeyLe key) l = List.insertionSort (byKeyLe key) l2 := by
  haveI := byKeyLe_antisymm key hinj
  exact List.eq_of_perm_of_sorted
    (((List.perm_insertionSort _ l).trans h).trans (List.perm_insertionSort _ l2).symm)
    (sortedByKeyLe key l) (sortedByKeyLe key l2)

theorem dbQueryStmts_args (db : DbConn) (stmt : SqlStmt) :
    ((dbQueryStmts db stmt).1).map SqlStmt.args = [stmt.args] := by
  unfold dbQueryStmts
  cases db.query stmt <;> rfl

/-- C1: for every list of inputs of each kind (files, strings, environment
variables, task infos), the row sequence handed to the bulk upsert statement
is sorted ascending by the primary attribute (path, string, or name) with a
lexicographic tie break on the digest; the sorted list is determined by the
input multiset alone, so the caller insertion order is irrelevant; the order
used is exactly the one induced by the strict comparator of the source; and
the argument rows of the generated statement are the sorted rows. -/
theorem c1_bulk_upsert_rows_sorted_deterministic :
    ((∀ l, List.Sorted (byKeyLe InputFile.key) (clonedSortedInputfiles l)) ∧
     (∀ l l2 : List InputFile, l.Perm l2 →
        clonedSortedInputfiles l = clonedSortedInputfiles l2) ∧
     (∀ a b : InputFile, byKeyLe InputFile.key a b ↔ inputFileLess b a = false) ∧
     (∀ db l, ((insertInputFilesIfNotExist db l).1).map SqlStmt.args =
        [(clonedSortedInputfiles l).flatMap
          (fun i => [SqlArg.s i.Path, SqlArg.s i.Digest])])) ∧
    ((∀ l, List.Sorted (byKeyLe InputString.key) (clonedSortedInputStrings l)) ∧
     (∀ l l2 : List InputString, l.Perm l2 →
        clonedSortedInputStrings l = clonedSortedInputStrings l2) ∧
     (∀ a b : InputString, byKeyLe InputString.key a b ↔ inputStringLess b a = false) ∧
     (∀ db l, ((insertInputStringsIfNotExist db l).1).map SqlStmt.args =
        [(clonedSortedInputStrings l).flatMap
          (fun i => [SqlArg.s i.Str, SqlArg.s i.Digest])])) ∧
    ((∀ l, List.Sorted (byKeyLe InputEnvVar.key) (clonedSortedInputEnvVars l)) ∧
     (∀ l l2 : List InputEnvVar, l.Perm l2 →
        clonedSortedInputEnvVars l = clonedSortedInputEnvVars l2) ∧
     (∀ a b : InputEnvVar, byKeyLe InputEnvVar.key a b ↔ inputEnvVarLess b a = false) ∧
     (∀ db l, ((insertInputEnVarsIfNotExist db l).1).map SqlStmt.args =
        [(clonedSortedInputEnvVars l).flatMap
          (fun i => [SqlArg.s i.Name, SqlArg.s i.Digest])])) ∧
    ((∀ l, List.Sorted (byKeyLe InputTaskInfo.key) (clonedSortedInputTasks l)) ∧
     (∀ l l2 : List InputTaskInfo, l.Perm l2 →
        clonedSortedInputTasks l = clonedSortedInputTasks l2) ∧
     (∀ a b : InputTaskInfo, byKeyLe InputTaskInfo.key a b ↔ inputTaskInfoLess b a = false) ∧
     (∀ db l, ((insertInputTaskIfNotExist db l).1).map SqlStmt.args =
        [(clonedSortedInputTasks l).flatMap
          (fun i => [SqlArg.s i.Name, SqlArg.s i.Digest])])) := by
  refine ⟨⟨?_, ?_, ?_, ?_⟩, ⟨?_, ?_, ?_, ?_⟩, ⟨?_, ?_, ?_, ?_⟩, ⟨?_, ?_, ?_, ?_⟩⟩
  · exact fun l => sortedByKeyLe InputFile.key l
  · exact fun l l2 h => insertionSortByKey_perm_eq InputFile.key inputFileKeyInj h
  · exact fun a b => byKeyLe_iff_not_less InputFile.key a b
  · exact fun db l => dbQueryStmts_args db _
  · exact fun l => sortedByKeyLe InputString.key l
  · exact fun l l2 h => insertionSortByKey_perm_eq InputString.key inputStringKeyInj h
  · exact fun a b => byKeyLe_iff_not_less InputString.key a b
  · exact fun db l => dbQueryStmts_args db _
  · exact fun l => sortedByKeyLe InputEnvVar.key l
  · exact fun l l2 h => insertionSortByKey_perm_eq InputEnvVar.key inputEnvVarKeyInj h
  · exact fun a b => byKeyLe_iff_not_less InputEnvVar.key a b
  · exact fun db l => dbQueryStmts_args db _
  · exact fun l => sortedByKeyLe InputTaskInfo.key l
  · exact fun l l2 h => insertionSortByKey_perm_eq InputTaskInfo.key inputTaskInfoKeyInj h
  · exact fun a b => byKeyLe_iff_not_less InputTaskInfo.key a b
  · exact fun db l => dbQueryStmts_args db _

/-- C1 witness: the sorted row list of two concrete permutations of the same
file input set coincide, via the determinism part of the theorem. -/
theorem c1_bulk_upsert_rows_sorted_deterministic_witness :
    clonedSortedInputfiles [⟨"b.c", "d1"⟩, ⟨"a.c", "d2"⟩] =
      clonedSortedInputfiles [⟨"a.c", "d2"⟩, ⟨"b.c", "d1"⟩] :=
  c1_bulk_upsert_rows_sorted_deterministic.1.2.1
    [⟨"b.c", "d1"⟩, ⟨"a.c", "d2"⟩] [⟨"a.c", "d2"⟩, ⟨"b.c", "d1"⟩] (by decide)

/-- C2: for every path handed to the allow operation, the registered access
mask is exactly the pair of READ_FILE and READ_DIR when the path is a
directory and exactly READ_FILE when it is a regular file; the file mask is
the directory mask with the directory-only rights stripped. -/
theorem c2_allow_access_rights :
    fsRights = (LANDLOCK_ACCESS_FS_READ_FILE ||| LANDLOCK_ACCESS_FS_READ_DIR) ∧
    fileRights = LANDLOCK_ACCESS_FS_READ_FILE ∧
    fileRights = andNot64 fsRights
      (LANDLOCK_ACCESS_FS_MAKE_DIR ||| LANDLOCK_ACCESS_FS_READ_DIR |||
        LANDLOCK_ACCESS_FS_REMOVE_DIR) ∧
    accessRights (.ok true) =
      .ok (LANDLOCK_ACCESS_FS_READ_FILE ||| LANDLOCK_ACCESS_FS_READ_DIR) ∧
    accessRights (.ok false) = .ok LANDLOCK_ACCESS_FS_READ_FILE ∧
    (∀ (rs : FSRuleset) (w : AllowWorld) (fd : Nat),
      w.isDir = .ok true → w.openResult = .ok fd →
      (FSRuleset.Allow rs w).1 =
        some ⟨LANDLOCK_ACCESS_FS_READ_FILE ||| LANDLOCK_ACCESS_FS_READ_DIR, fd⟩) ∧
    (∀ (rs : FSRuleset) (w : AllowWorld) (fd : Nat),
      w.isDir = .ok false → w.openResult = .ok fd →
      (FSRuleset.Allow rs w).1 = some ⟨LANDLOCK_ACCESS_FS_READ_FILE, fd⟩) := by
  have hfs : fsRights = (LANDLOCK_ACCESS_FS_READ_FILE ||| LANDLOCK_ACCESS_FS_READ_DIR) := by
    decide
  have hfile : fileRights = LANDLOCK_ACCESS_FS_READ_FILE := by decide
  refine ⟨hfs, hfile, rfl, ?_, ?_, ?_, ?_⟩
  · simp [accessRights, hfs]
  · simp [accessRights, hfile]
  · intro rs w fd h1 h2
    simp [FSRuleset.Allow, accessRights, h1, h2, hfs]
  · intro rs w fd h1 h2
    simp [FSRuleset.Allow, accessRights, h1, h2, hfile]

/-- C2 witness: the mask registered for a concrete directory and a concrete
regular file, via the theorem. -/
theorem c2_allow_access_rights_witness :
    (FSRuleset.Allow ⟨3⟩ ⟨.ok true, .ok 7, 0⟩).1 =
      some ⟨LANDLOCK_ACCESS_FS_READ_FILE ||| LANDLOCK_ACCESS_FS_READ_DIR, 7⟩ ∧
    (FSRuleset.Allow ⟨3⟩ ⟨.ok false, .ok 7, 0⟩).1 =
      some ⟨LANDLOCK_ACCESS_FS_READ_FILE, 7⟩ :=
  ⟨c2_allow_access_rights.2.2.2.2.2.1 ⟨3⟩ ⟨.ok true, .ok 7, 0⟩ 7 rfl rfl,
   c2_allow_access_rights.2.2.2.2.2.2 ⟨3⟩ ⟨.ok false, .ok 7, 0⟩ 7 rfl rfl⟩

theorem allowAll_fst_front (w : ExecWorld) (ps : List String) :
    ∃ rest, (allowAll w ps).1 ++ rest = ps.map ExecStep.allowPath := by
  induction ps with
  | nil => exact ⟨[], rfl⟩
  | cons p ps ih =>
    cases hp : w.allowErr p with
    | some m => exact ⟨List.map ExecStep.allowPath ps, by simp [allowAll, hp]⟩
    | none =>
      obtain ⟨rest, hr⟩ := ih
      exact ⟨rest, by simp [allowAll, hp, hr]⟩

theorem allowAll_fst_steps (w : ExecWorld) (ps : List String) :
    ∀ s ∈ (allowAll w ps).1, ∃ p, s = ExecStep.allowPath p := by
  induction ps with
  | nil => intro s hs; simp [allowAll] at hs
  | cons p ps ih =>
    intro s hs
    cases hp : w.allowErr p with
    | some m =>
      simp [allowAll, hp] at hs
      exact ⟨p, hs⟩
    | none =>
      simp [allowAll, hp] at hs
      rcases hs with rfl | hs
      · exact ⟨p, rfl⟩
      · exact ih s hs

theorem allowAll_ok (w : ExecWorld) (ps : List String)
    (h : ∀ p ∈ ps, w.allowErr p = none) :
    allowAll w ps = (ps.map ExecStep.allowPath, none) := by
  induction ps with
  | nil => rfl
  | cons p ps ih =>
    have hp : w.allowErr p = none := h p (List.mem_cons_self p ps)
    have ht : ∀ q ∈ ps, w.allowErr q = none :=
      fun q hq => h q (List.mem_cons_of_mem p hq)
    simp [allowAll, hp, ih ht]

theorem allowAll_err (w : ExecWorld) (ps : List String)
    (h : ∃ p ∈ ps, w.allowErr p ≠ none) :
    (allowAll w ps).2 ≠ none := by
  induction ps with
  | nil => simp at h
  | cons p ps ih =>
    cases hp : w.allowErr p with
    | some m => simp [allowAll, hp]
    | none =>
      rcases h with ⟨q, hq, hne⟩
      rcases List.mem_cons.mp hq with rfl | hq2
      · exact absurd hp hne
      · have h2 := ih ⟨q, hq2, hne⟩
        simpa [allowAll, hp] using h2

theorem allowAll_none (w : ExecWorld) (ps : List String)
    (h : (allowAll w ps).2 = none) :
    (allowAll w ps).1 = ps.map ExecStep.allowPath := by
  induction ps with
  | nil => rfl
  | cons p ps ih =>
    cases hp : w.allowErr p with
    | some m => simp [allowAll, hp] at h
    | none =>
      have h2 : (allowAll w ps).2 = none := by simpa [allowAll, hp] using h
      simp [allowAll, hp, ih h2]

/-- C3: Exec performs ruleset creation, one allow rule per entry of
AllowedFSAccessPaths in list order, self restriction, the working directory
change and only then the image replacement, in this order (every trace is a
prefix of that sequence); when a step before the image replacement fails the
image is never replaced and an error is returned; when all of them succeed
the full ordered trace runs and the image replacement is last. -/
theorem c3_exec_sandbox_before_image :
    ∀ (c : CmdSandboxed) (w : ExecWorld),
      (∃ rest, (CmdSandboxed.Exec c w).1 ++ rest =
          ExecStep.createRuleset ::
            (c.AllowedFSAccessPaths.map ExecStep.allowPath ++
              [ExecStep.restrictSelf, ExecStep.chdirWorkDir, ExecStep.execImage])) ∧
      ((w.newRulesetErr ≠ none ∨
          (∃ p ∈ c.AllowedFSAccessPaths, w.allowErr p ≠ none) ∨
          w.restrictErr ≠ none ∨ w.chdirErr ≠ none) →
        ExecStep.execImage ∉ (CmdSandboxed.Exec c w).1 ∧
        (CmdSandboxed.Exec c w).2 ≠ none) ∧
      ((w.newRulesetErr = none ∧
          (∀ p ∈ c.AllowedFSAccessPaths, w.allowErr p = none) ∧
          w.restrictErr = none ∧ w.chdirErr = none) →
        (CmdSandboxed.Exec c w).1 =
          ExecStep.createRuleset ::
            (c.AllowedFSAccessPaths.map ExecStep.allowPath ++
              [ExecStep.restrictSelf, ExecStep.chdirWorkDir, ExecStep.execImage]) ∧
        ((CmdSandboxed.Exec c w).2 = none ↔ w.execErr = none)) := by
  intro c w
  refine ⟨?_, ?_, ?_⟩
  · cases hn : w.newRulesetErr with
    | some e1 =>
      exact ⟨c.AllowedFSAccessPaths.map ExecStep.allowPath ++
        [ExecStep.restrictSelf, ExecStep.chdirWorkDir, ExecStep.execImage],
        by simp [CmdSandboxed.Exec, hn]⟩
    | none =>
      rcases ha : allowAll w c.AllowedFSAccessPaths with ⟨tr, r⟩
      cases r with
      | some e1 =>
        obtain ⟨rest, hr⟩ := allowAll_fst_front w c.AllowedFSAccessPaths
        rw [ha] at hr
        have hr2 : tr ++ rest = List.map ExecStep.allowPath c.AllowedFSAccessPaths := hr
        refine ⟨rest ++ [ExecStep.restrictSelf, ExecStep.chdirWorkDir, ExecStep.execImage], ?_⟩
        simp only [CmdSandboxed.Exec, hn, ha, List.cons_append]
        rw [← List.append_assoc, hr2]
      | none =>
        have htr : tr = List.map ExecStep.allowPath c.AllowedFSAccessPaths := by
          have h2 := allowAll_none w c.AllowedFSAccessPaths (by rw [ha])
          rw [ha] at h2
          exact h2
        subst htr
        cases hrs : w.restrictErr with
        | some m =>
          exact ⟨[ExecStep.chdirWorkDir, ExecStep.execImage],
            by simp [CmdSandboxed.Exec, hn, ha, hrs]⟩
        | none =>
          cases hc : w.chdirErr with
          | some m =>
            exact ⟨[ExecStep.execImage],
              by simp [CmdSandboxed.Exec, hn, ha, hrs, hc]⟩
          | none =>
            cases he : w.execErr with
            | some m =>
              exact ⟨[], by simp [CmdSandboxed.Exec, hn, ha, hrs, hc, he]⟩
            | none =>
              exact ⟨[], by simp [CmdSandboxed.Exec, hn, ha, hrs, hc, he]⟩
  · intro hfail
    cases hn : w.newRulesetErr with
    | some e1 =>
      exact ⟨by simp [CmdSandboxed.Exec, hn], by simp [CmdSandboxed.Exec, hn]⟩
    | none =>
      rcases ha : allowAll w c.AllowedFSAccessPaths with ⟨tr, r⟩
      have hsteps : ∀ s ∈ tr, ∃ p, s = ExecStep.allowPath p := by
        have h2 := allowAll_fst_steps w c.AllowedFSAccessPaths
        rw [ha] at h2
        exact h2
      have hnoexec : ExecStep.execImage ∉ tr := by
        intro hmem
        rcases hsteps _ hmem with ⟨p, hp⟩
        exact ExecStep.noConfusion hp
      cases r with
      | some e1 =>
        constructor
        · intro hmem
          simp [CmdSandboxed.Exec, hn, ha] at hmem
          exact hnoexec hmem
        · simp [CmdSandboxed.Exec, hn, ha]
      | none =>
        cases hrs : w.restrictErr with
        | some m =>
          constructor
          · intro hmem
            simp [CmdSandboxed.Exec, hn, ha, hrs] at hmem
            exact hnoexec hmem
          · simp [CmdSandboxed.Exec, hn, ha, hrs]
        | none =>
          cases hc : w.chdirErr with
          | some m =>
            constructor
            · intro hmem
              simp [CmdSandboxed.Exec, hn, ha, hrs, hc] at hmem
              exact hnoexec hmem
            · simp [CmdSandboxed.Exec, hn, ha, hrs, hc]
          | none =>
            exfalso
            rcases hfail with h | h | h | h
            · exact h hn
            · have h2 := allowAll_err w c.AllowedFSAccessPaths h
              rw [ha] at h2
              exact h2 rfl
            · exact h hrs
            · exact h hc
  · rintro ⟨h1, h2, h3, h4⟩
    have ha := allowAll_ok w c.AllowedFSAccessPaths h2
    constructor
    · cases he : w.execErr <;> simp [CmdSandboxed.Exec, h1, ha, h3, h4, he]
    · cases he : w.execErr <;> simp [CmdSandboxed.Exec, h1, ha, h3, h4, he]

/-- C3 witness: the full ordered trace of a concrete command in a world where
every step succeeds, via the theorem. -/
theorem c3_exec_sandbox_before_image_witness :
    (CmdSandboxed.Exec ⟨"/bin/echo", ["echo"], "/tmp", [], ["/usr"]⟩
        ⟨none, fun _ => none, none, none, none⟩).1 =
      [ExecStep.createRuleset, ExecStep.allowPath "/usr", ExecStep.restrictSelf,
       ExecStep.chdirWorkDir, ExecStep.execImage] := by
  have h := (c3_exec_sandbox_before_image
      ⟨"/bin/echo", ["echo"], "/tmp", [], ["/usr"]⟩
      ⟨none, fun _ => none, none, none, none⟩).2.2
      ⟨rfl, fun p _ => rfl, rfl, rfl⟩
  simpa using h.1

/-- C4 as frozen is refuted: when the runner is in the skip-after-error state
with skipping enabled, RunSandboxed returns the skip error even though the
untracked files callback is configured and would report a non empty list. -/
theorem c4_claim_counterexample :
    (TaskRunner.RunSandboxed ⟨true, true, some (fun _ => .ok ["a.txt"])⟩
        ⟨"/repo", ["make"], "/repo/app"⟩ ⟨.ok [], none, .ok 0⟩).2 =
      .error RunError.errTaskRunSkipped ∧
    RunError.errTaskRunSkipped ≠ RunError.errUntrackedGitFilesExist ["a.txt"] := by
  constructor
  · rfl
  · decide

/-- C4 amended: when the runner is not skipping after a previous error, the
untracked files callback is configured and reports a non empty list, then
RunSandboxed returns the untracked-files error carrying exactly that list and
no side effect happens: the trace is empty, so no temp task info file is
created and no sandboxed child is started. -/
theorem c4_untracked_files_gate :
    ∀ (t : TaskRunner) (task : Task) (w : RunWorld)
      (f : String → Except String (List String)) (files : List String),
      ¬(t.skipAfterError ∧ t.skipRunsEnabled) →
      t.GitUntrackedFilesFn = some f →
      f task.RepositoryRoot = .ok files →
      files ≠ [] →
      TaskRunner.RunSandboxed t task w =
        ([], .error (.errUntrackedGitFilesExist files)) := by
  intro t task w f files hskip hfn hres hne
  simp [TaskRunner.RunSandboxed, hskip, hfn, hres, hne]

/-- C4 witness: the gate fires on a concrete runner, via the theorem. -/
theorem c4_untracked_files_gate_witness :
    TaskRunner.RunSandboxed ⟨false, false, some (fun _ => .ok ["b.txt"])⟩
      ⟨"/repo", ["make"], "/repo/app"⟩ ⟨.ok [], none, .ok 0⟩ =
      ([], .error (.errUntrackedGitFilesExist ["b.txt"])) :=
  c4_untracked_files_gate ⟨false, false, some (fun _ => .ok ["b.txt"])⟩
    ⟨"/repo", ["make"], "/repo/app"⟩ ⟨.ok [], none, .ok 0⟩
    (fun _ => .ok ["b.txt"]) ["b.txt"] (by simp) rfl rfl (by simp)

/-- C5: creating a release whose name is already stored fails with ErrExists
and leaves the registry unchanged; a successful creation stores the name; and
the error mapping of the release insert sends exactly the unique violation on
release_name_uniq to ErrExists and nothing else. -/
theorem c5_release_already_exists :
    (∀ (db : ReleaseDb) (name : String) (createdAt : Int) (ids : List Int),
        name ∈ db.releases →
        Client.CreateRelease db name createdAt ids none = (db, .error .errExists)) ∧
    (∀ (db : ReleaseDb) (name : String) (createdAt : Int) (ids : List Int),
        name ∉ db.releases → ids ≠ [] →
        (Client.CreateRelease db name createdAt ids none).2 = .ok () ∧
        name ∈ (Client.CreateRelease db name createdAt ids none).1.releases) ∧
    (∀ (q : String) (e : DbError),
        releaseInsertErrToStorage q e = .errExists ↔
          e = DbError.pg "23505" "release_name_uniq") := by
  refine ⟨?_, ?_, ?_⟩
  · intro db name createdAt ids hmem
    simp [Client.CreateRelease, beginFunc, Client.insertRelease,
      releaseInsertQuery, hmem, releaseInsertErrToStorage]
  · intro db name createdAt ids hmem hne
    constructor
    · simp [Client.CreateRelease, beginFunc, Client.insertRelease,
        releaseInsertQuery, hmem, Client.insertReleaseTaskRun, hne]
    · simp [Client.CreateRelease, beginFunc, Client.insertRelease,
        releaseInsertQuery, hmem, Client.insertReleaseTaskRun, hne]
  · intro q e
    cases e with
    | pg code constraintName =>
      by_cases hc : code = "23505" ∧ constraintName = "release_name_uniq"
      · simp [releaseInsertErrToStorage, hc.1, hc.2]
      · constructor
        · intro h
          exfalso
          simp [releaseInsertErrToStorage, hc] at h
        · intro h
          injection h with h1 h2
          exact absurd ⟨h1, h2⟩ hc
    | other m => simp [releaseInsertErrToStorage]

/-- C5 witness: the duplicate name and the mapping at concrete values, via
the theorem. -/
theorem c5_release_already_exists_witness :
    Client.CreateRelease ⟨["v1"], []⟩ "v1" 0 [1] none =
      (⟨["v1"], []⟩, .error .errExists) ∧
    releaseInsertErrToStorage releaseInsertQueryText
      (.pg "23505" "release_name_uniq") = .errExists :=
  ⟨c5_release_already_exists.1 ⟨["v1"], []⟩ "v1" 0 [1] (by simp),
   (c5_release_already_exists.2.2 releaseInsertQueryText
      (.pg "23505" "release_name_uniq")).mpr rfl⟩

/-- C6 as frozen is refuted: calling CreateRelease with an empty task run id
list and a name that is already stored returns ErrExists, not the empty
release error. -/
theorem c6_claim_counterexample :
    (Client.CreateRelease ⟨["v1"], []⟩ "v1" 0 [] none).2 = .error .errExists ∧
    StorageError.errExists ≠ StorageError.emptyRelease := by
  constructor
  · rfl
  · decide

/-- C6 amended: when the release insert itself succeeds (fresh name, readable
metadata), CreateRelease with an empty task run id list returns the empty
release error and the registry state is unchanged: the release row written
inside the transaction is rolled back. -/
theorem c6_empty_task_run_ids_rolled_back :
    ∀ (db : ReleaseDb) (name : String) (createdAt : Int)
      (md : Option (Except String (List Nat))),
      name ∉ db.releases →
      (∀ m, md ≠ some (.error m)) →
      Client.CreateRelease db name createdAt [] md = (db, .error .emptyRelease) := by
  intro db name createdAt md hname hmd
  cases md with
  | none =>
    simp [Client.CreateRelease, beginFunc, Client.insertRelease,
      releaseInsertQuery, hname, Client.insertReleaseTaskRun]
  | some v =>
    cases v with
    | error m => exact absurd rfl (hmd m)
    | ok v2 =>
      simp [Client.CreateRelease, beginFunc, Client.insertRelease,
        releaseInsertQuery, hname, Client.insertReleaseTaskRun]

/-- C6 witness: the empty id list on a concrete fresh registry, via the
theorem. -/
theorem c6_empty_task_run_ids_rolled_back_witness :
    Client.CreateRelease ⟨[], []⟩ "v1" 0 [] none = (⟨[], []⟩, .error .emptyRelease) :=
  c6_empty_task_run_ids_rolled_back ⟨[], []⟩ "v1" 0 none (by simp) (fun m => by simp)

/-- C7: the errno mapping sends ENOSYS to the kernel-unsupported error,
EOPNOTSUPP to the disabled-at-boot error, every other nonzero errno to itself
and zero to no error; Version and ruleset creation report exactly the mapped
error of their syscall errno. -/
theorem c7_errno_to_error_mapping :
    errnoToError ENOSYS = some .errLandLockNotSupported ∧
    errnoToError EOPNOTSUPP = some .errLandlockDisabled ∧
    (∀ e, e ≠ 0 → e ≠ ENOSYS → e ≠ EOPNOTSUPP →
      errnoToError e = some (.errno e)) ∧
    errnoToError 0 = none ∧
    (∀ r e, e ≠ 0 → Version r e = (-1, errnoToError e)) ∧
    (∀ r, Version r 0 = ((r : Int), none)) ∧
    (∀ fd e, e ≠ 0 → NewFSRuleset fd e = (none, errnoToError e)) ∧
    (∀ fd, NewFSRuleset fd 0 = (some ⟨fd⟩, none)) := by
  refine ⟨by decide, by decide, ?_, by decide, ?_, ?_, ?_, ?_⟩
  · intro e h0 h1 h2
    simp [errnoToError, h0, h1, h2]
  · intro r e h
    simp [Version, h]
  · intro r
    simp [Version]
  · intro fd e h
    simp [NewFSRuleset, h]
  · intro fd
    simp [NewFSRuleset]

/-- C7 witness: the mapping at the concrete errno 13, via the theorem. -/
theorem c7_errno_to_error_mapping_witness :
    errnoToError 13 = some (.errno 13) ∧
    Version 2 13 = (-1, errnoToError 13) ∧
    NewFSRuleset 5 13 = (none, errnoToError 13) :=
  ⟨c7_errno_to_error_mapping.2.2.1 13 (by decide) (by decide) (by decide),
   c7_errno_to_error_mapping.2.2.2.2.1 2 13 (by decide),
   c7_errno_to_error_mapping.2.2.2.2.2.2.1 5 13 (by decide)⟩

/-- C8: Restrict always issues the no-new-privileges prctl first; when the
prctl fails the self restrict syscall is never issued and the prctl error is
returned; when it succeeds the self restrict syscall follows. -/
theorem c8_restrict_prctl_first :
    (∀ (rs : FSRuleset) (w : RestrictWorld),
      ((FSRuleset.Restrict rs w).1).head? = some RestrictStep.prctlNoNewPrivs) ∧
    (∀ (rs : FSRuleset) (w : RestrictWorld) (m : String),
      w.prctlErr = some m →
        (FSRuleset.Restrict rs w).1 = [RestrictStep.prctlNoNewPrivs] ∧
        RestrictStep.landlockRestrictSelf ∉ (FSRuleset.Restrict rs w).1 ∧
        (FSRuleset.Restrict rs w).2 = some (.prctlFailed m)) ∧
    (∀ (rs : FSRuleset) (w : RestrictWorld),
      w.prctlErr = none →
        (FSRuleset.Restrict rs w).1 =
          [RestrictStep.prctlNoNewPrivs, RestrictStep.landlockRestrictSelf] ∧
        (FSRuleset.Restrict rs w).2 =
          (errnoToError w.restrictErrno).map RestrictError.landlock) := by
  refine ⟨?_, ?_, ?_⟩
  · intro rs w
    cases h : w.prctlErr <;> simp [FSRuleset.Restrict, h]
  · intro rs w m h
    refine ⟨by simp [FSRuleset.Restrict, h], by simp [FSRuleset.Restrict, h],
      by simp [FSRuleset.Restrict, h]⟩
  · intro rs w h
    exact ⟨by simp [FSRuleset.Restrict, h], by simp [FSRuleset.Restrict, h]⟩

/-- C8 witness: a failing prctl on a concrete ruleset, via the theorem. -/
theorem c8_restrict_prctl_first_witness :
    (FSRuleset.Restrict ⟨3⟩ ⟨some "eperm", 0⟩).1 = [RestrictStep.prctlNoNewPrivs] ∧
    RestrictStep.landlockRestrictSelf ∉ (FSRuleset.Restrict ⟨3⟩ ⟨some "eperm", 0⟩).1 ∧
    (FSRuleset.Restrict ⟨3⟩ ⟨some "eperm", 0⟩).2 = some (.prctlFailed "eperm") :=
  c8_restrict_prctl_first.2.1 ⟨3⟩ ⟨some "eperm", 0⟩ "eperm" rfl

theorem readStrs_encode (l : List String) (rest : List GobTok) :
    readStrs l.length (l.map GobTok.str ++ rest) = .ok (l, rest) := by
  induction l with
  | nil => rfl
  | cons s l ih => simp [readStrs, ih]

theorem readStrList_flat (l : List String) (rest : List GobTok) :
    readStrList (GobTok.num l.length :: (l.map GobTok.str ++ rest)) = .ok (l, rest) := by
  simp [readStrList, readStrs_encode]

/-- C9: decoding the parent to child IPC buffer produced by encoding a
CmdSandboxed record yields the original record: decodeCmdSb after encodeCmdSb
is the identity on all fields. -/
theorem c9_encode_decode_roundtrip :
    ∀ c : CmdSandboxed, decodeCmdSb (encodeCmdSb c) = .ok c := by
  intro c
  obtain ⟨n, a, d, e, p⟩ := c
  by_cases hn : n = "" <;> by_cases ha : a = ([] : List String) <;>
    by_cases hd : d = "" <;> by_cases he : e = ([] : List String) <;>
    by_cases hp : p = ([] : List String) <;>
    simp [decodeCmdSb, encodeCmdSb, nonZeroFields, emitFields, decodeFields,
      encStrList, readStrList_flat, zeroCmdSb, hn, ha, hd, he, hp]

/-- C10: committing a run whose list of one input kind or whose output list
is empty issues no SQL statement for that kind and succeeds: each insert
function returns immediately with an empty statement trace. -/
theorem c10_empty_lists_issue_no_sql :
    (∀ db id, insertTaskRunInputStringsIfNotExist db id [] = ([], .ok ())) ∧
    (∀ db id, insertTaskRunInputFilesIfNotExist db id [] = ([], .ok ())) ∧
    (∀ db id, insertTaskRunInputEnvVarsIfNotExist db id [] = ([], .ok ())) ∧
    (∀ db id, insertTaskRunInputTasksIfNotExist db id [] = ([], .ok ())) ∧
    (∀ db id, insertTaskOutputsIfNotExist db id [] = ([], .ok ())) := by
  refine ⟨?_, ?_, ?_, ?_, ?_⟩ <;> (intro db id; rfl)

end Baur
